import Mathlib

/-!
Shallow embedding of the decay/degradation engine of The Entropic Archival System.

The definitions below are translated from the TypeScript source:
* `src/src/contexts/SimulationContext.tsx` — `processDecayEvent`, `stepNextDecay`
  (the decay scheduler, degradation selection loop and alert emission);
* `src/unnamed/part_000` (the `analyze-semantic` edge function) and
  `src/src/pages/IngestData.tsx` — the semantic score formula;
* `src/src/pages/Settings.tsx` — `handleSaveWeights` weight normalization;
* `src/src/components/simulation/SimulationControls.tsx` — the Step button guard.

Numbers stored as JS `number` are modelled as rationals (`ℚ`); `Math.floor`
is `Int.floor`.  Nullable database columns are `Option ℚ`; JS `x || d`
(null and 0 are falsy) is modelled explicitly where the source uses it.
Database rows have no intrinsic order, so functions that touch the item set
take an explicit list whose order stands for the (unspecified) order in which
the store returns rows; the JS `Array.prototype.sort` the source applies to
that list is stable, hence it is modelled by `List.insertionSort`, which is
stable for the same comparison.
-/

namespace EntropicArchive

/-- The five degradation stages of an archived item. -/
inductive Stage where
  | FULL
  | COMPRESSED
  | SUMMARIZED
  | MINIMAL
  | DELETED
deriving DecidableEq

/-- An archive item row, restricted to the columns `processDecayEvent` selects:
`id, current_size_kb, stage, semantic_score, val_reconstructability`. -/
structure Item where
  id : ℕ
  stage : Stage
  currentSizeKB : ℚ
  semanticScore : Option ℚ
  valReconstructability : Option ℚ
deriving DecidableEq

/-- Alert severities (`src/src/types/alerts.ts`). -/
inductive Severity where
  | info
  | warning
  | critical
deriving DecidableEq

/-- Alert types used by `processDecayEvent`. -/
inductive AlertType where
  | storagePressure
  | itemDeleted
  | highValueRisk
  | itemDegraded
deriving DecidableEq

/-- An emitted alert (the fields of the `addAlert` payload that carry data). -/
structure Alert where
  itemId : Option ℕ
  semanticScore : ℚ
  storagePressureVal : Option ℚ
  severity : Severity
  alertType : AlertType
  simulatedYear : ℤ
deriving DecidableEq

/-- A `degradation_logs` row as inserted by `processDecayEvent`. -/
structure LogEntry where
  itemId : ℕ
  prevStage : Stage
  newStage : Stage
  semanticScore : Option ℚ
  storagePressureVal : ℚ
  reconstructabilityScore : ℚ
  sizeBeforeKB : ℚ
  sizeAfterKB : ℚ
deriving DecidableEq

/-- A `decay_events` row, with its final (post-update) storage and count. -/
structure DecayEvent where
  eventNo : ℤ
  simulatedYear : ℤ
  capacityBeforeKB : ℚ
  capacityAfterKB : ℤ
  storageBeforeKB : ℚ
  storageAfterKB : ℚ
  itemsAffected : ℕ
deriving DecidableEq

/-- The `simulation_settings` row (fields the decay cycle reads or writes). -/
structure SimSettings where
  currentCapacityKB : ℚ
  currentYear : ℤ
  totalYears : ℤ
  decayPercent : ℚ
  decayIntervalYears : ℤ
  isRunning : Bool
deriving DecidableEq

/-- JS `item.semantic_score || 0`: a null score reads as 0 (0 maps to 0 as well). -/
def scoreOrZero (i : Item) : ℚ :=
  i.semanticScore.getD 0

/-- JS `item.val_reconstructability || 50`: null — and 0, which is falsy — read as 50. -/
def reconOrFifty (x : Option ℚ) : ℚ :=
  match x with
  | none => 50
  | some v => if v = 0 then 50 else v

/-- The `switch (prevStage)` of `processDecayEvent`: next stage and new size.
A `DELETED` input falls through the switch, leaving stage and size unchanged. -/
def nextStageSize (st : Stage) (size : ℚ) : Stage × ℚ :=
  match st with
  | Stage.FULL => (Stage.COMPRESSED, ((⌊size * (7 / 10)⌋ : ℤ) : ℚ))
  | Stage.COMPRESSED => (Stage.SUMMARIZED, ((⌊size * (3 / 10)⌋ : ℤ) : ℚ))
  | Stage.SUMMARIZED => (Stage.MINIMAL, ((⌊size * (1 / 10)⌋ : ℤ) : ℚ))
  | Stage.MINIMAL => (Stage.DELETED, 0)
  | Stage.DELETED => (Stage.DELETED, size)

/-- The comparator `(a, b) => (a.semantic_score || 0) - (b.semantic_score || 0)`. -/
def scoreLE (a b : Item) : Prop :=
  scoreOrZero a ≤ scoreOrZero b

instance : DecidableRel scoreLE :=
  fun a b => inferInstanceAs (Decidable (scoreOrZero a ≤ scoreOrZero b))

instance : IsTotal Item scoreLE :=
  ⟨fun a b => le_total (scoreOrZero a) (scoreOrZero b)⟩

instance : IsTrans Item scoreLE :=
  ⟨fun _ _ _ => le_trans⟩

/-- `[...items].sort((a, b) => (a.semantic_score || 0) - (b.semantic_score || 0))`.
JS sort is stable; `List.insertionSort` is the stable sort for the same order. -/
def sortByScore (l : List Item) : List Item :=
  List.insertionSort scoreLE l

/-- Severity choice for a per-item alert (lines 266-271 of SimulationContext). -/
def itemAlertSeverity (score : ℚ) (newStage : Stage) : Severity :=
  if score > 70 then
    if newStage = Stage.DELETED then Severity.critical else Severity.warning
  else if newStage = Stage.DELETED then Severity.warning
  else Severity.info

/-- `isHighValue`: `(item.semantic_score || 0) >= 80`. -/
def itemAlertHighValue (score : ℚ) : Bool :=
  decide (score ≥ 80)

/-- The guard `if (isHighValue || newStage === 'DELETED')` around `addAlert`. -/
def itemAlertEmitted (score : ℚ) (newStage : Stage) : Bool :=
  itemAlertHighValue score || decide (newStage = Stage.DELETED)

/-- `alertType = DELETED ? item_deleted : isHighValue ? high_value_risk : item_degraded`. -/
def itemAlertType (score : ℚ) (newStage : Stage) : AlertType :=
  if newStage = Stage.DELETED then AlertType.itemDeleted
  else if score ≥ 80 then AlertType.highValueRisk
  else AlertType.itemDegraded

/-- Result of the `for (const item of sortedItems)` degradation loop. -/
structure LoopResult where
  logs : List LogEntry
  alerts : List Alert
  items : List Item
  storage : ℚ
  affected : ℕ
deriving DecidableEq

/-- The degradation loop of `processDecayEvent` (lines 229-324): walk the
sorted items, break once storage fits, otherwise advance each item one stage,
emitting a log entry, an optional alert, and the updated item row. -/
def degradeLoop (cap : ℚ) (year : ℤ) : List Item → ℚ → LoopResult
  | [], storage => ⟨[], [], [], storage, 0⟩
  | item :: rest, storage =>
    if storage ≤ cap then ⟨[], [], item :: rest, storage, 0⟩
    else
      let pressure := storage / cap * 100
      let p := nextStageSize item.stage item.currentSizeKB
      if p.1 = item.stage then
        let r := degradeLoop cap year rest storage
        ⟨r.logs, r.alerts, item :: r.items, r.storage, r.affected⟩
      else
        let score := scoreOrZero item
        let log : LogEntry :=
          ⟨item.id, item.stage, p.1, item.semanticScore, pressure,
            reconOrFifty item.valReconstructability, item.currentSizeKB, p.2⟩
        let alerts : List Alert :=
          if itemAlertEmitted score p.1 then
            [⟨some item.id, score, some pressure, itemAlertSeverity score p.1,
              itemAlertType score p.1, year⟩]
          else []
        let item2 : Item := { item with stage := p.1, currentSizeKB := p.2 }
        let r := degradeLoop cap year rest (storage - (item.currentSizeKB - p.2))
        ⟨log :: r.logs, alerts ++ r.alerts, item2 :: r.items, r.storage, r.affected + 1⟩

/-- The storage-pressure alert payload (lines 215-226). -/
def pressureAlert (pressure : ℚ) (year : ℤ) : Alert :=
  ⟨none, 0, some pressure,
    if pressure > 100 then Severity.critical else Severity.warning,
    AlertType.storagePressure, year⟩

/-- Everything one call to `processDecayEvent` produces or mutates. -/
structure CycleOutput where
  settings : SimSettings
  items : List Item
  event : Option DecayEvent
  logs : List LogEntry
  alerts : List Alert
deriving DecidableEq

/-- `capacityAfter = Math.floor(capacityBefore * (1 - settings.decay_percent / 100))`. -/
def capacityAfterOf (st : SimSettings) : ℤ :=
  ⌊st.currentCapacityKB * (1 - st.decayPercent / 100)⌋

/-- `eventNo = Math.floor(newYear / decay_interval_years)`. -/
def eventNoOf (st : SimSettings) : ℤ :=
  ⌊((st.currentYear + st.decayIntervalYears : ℤ) : ℚ) / (st.decayIntervalYears : ℚ)⌋

/-- The item query's `.neq('stage', 'DELETED')` filter. -/
def eligibleOf (items : List Item) : List Item :=
  items.filter (fun i => decide (i.stage ≠ Stage.DELETED))

/-- The rows the query leaves untouched (already DELETED). -/
def retainedOf (items : List Item) : List Item :=
  items.filter (fun i => decide (i.stage = Stage.DELETED))

/-- `storageBefore = items.reduce((sum, item) => sum + item.current_size_kb, 0)`. -/
def storageOf (items : List Item) : ℚ :=
  (items.map Item.currentSizeKB).sum

/-- `storagePressure = (currentStorage / capacityAfter) * 100` at cycle start. -/
def cyclePressure (st : SimSettings) (items : List Item) : ℚ :=
  storageOf (eligibleOf items) / ((capacityAfterOf st : ℤ) : ℚ) * 100

/-- One decay cycle (`processDecayEvent`, lines 159-355), as a pure function of
the settings row and the item rows.  The input list order models the store's
(unspecified) row order; rows with `stage = DELETED` are excluded by the query
(`.neq('stage', 'DELETED')`) and left untouched. -/
def decayCycle (st : SimSettings) (items : List Item) : CycleOutput :=
  if st.currentYear + st.decayIntervalYears > st.totalYears then
    ⟨{ st with isRunning := false }, items, none, [], []⟩
  else if storageOf (eligibleOf items) > ((capacityAfterOf st : ℤ) : ℚ) then
    ⟨{ st with
        currentYear := st.currentYear + st.decayIntervalYears
        currentCapacityKB := ((capacityAfterOf st : ℤ) : ℚ) },
      (degradeLoop ((capacityAfterOf st : ℤ) : ℚ) (st.currentYear + st.decayIntervalYears)
          (sortByScore (eligibleOf items)) (storageOf (eligibleOf items))).items
        ++ retainedOf items,
      some ⟨eventNoOf st, st.currentYear + st.decayIntervalYears, st.currentCapacityKB,
        capacityAfterOf st, storageOf (eligibleOf items),
        (degradeLoop ((capacityAfterOf st : ℤ) : ℚ) (st.currentYear + st.decayIntervalYears)
            (sortByScore (eligibleOf items)) (storageOf (eligibleOf items))).storage,
        (degradeLoop ((capacityAfterOf st : ℤ) : ℚ) (st.currentYear + st.decayIntervalYears)
            (sortByScore (eligibleOf items)) (storageOf (eligibleOf items))).affected⟩,
      (degradeLoop ((capacityAfterOf st : ℤ) : ℚ) (st.currentYear + st.decayIntervalYears)
          (sortByScore (eligibleOf items)) (storageOf (eligibleOf items))).logs,
      (if cyclePressure st items > 80 then
          [pressureAlert (cyclePressure st items) (st.currentYear + st.decayIntervalYears)]
        else [])
        ++ (degradeLoop ((capacityAfterOf st : ℤ) : ℚ) (st.currentYear + st.decayIntervalYears)
            (sortByScore (eligibleOf items)) (storageOf (eligibleOf items))).alerts⟩
  else
    ⟨{ st with
        currentYear := st.currentYear + st.decayIntervalYears
        currentCapacityKB := ((capacityAfterOf st : ℤ) : ℚ) },
      items,
      some ⟨eventNoOf st, st.currentYear + st.decayIntervalYears, st.currentCapacityKB,
        capacityAfterOf st, storageOf (eligibleOf items), storageOf (eligibleOf items), 0⟩,
      [], []⟩

/-- A full simulation snapshot: settings, item rows, and the append-only
event / log / alert tables. -/
structure SimState where
  settings : SimSettings
  items : List Item
  events : List DecayEvent
  logs : List LogEntry
  alerts : List Alert
deriving DecidableEq

/-- `processDecayEvent` acting on a full snapshot: apply one cycle and append
its event, log entries and alerts to the respective tables. -/
def processDecayEvent (s : SimState) : SimState :=
  let o := decayCycle s.settings s.items
  ⟨o.settings, o.items, s.events ++ o.event.toList, s.logs ++ o.logs,
    s.alerts ++ o.alerts⟩

/-- `stepNextDecay` (lines 375-377): it simply awaits `processDecayEvent()`,
with no check of `isRunning`. -/
def stepNextDecay (s : SimState) : SimState :=
  processDecayEvent s

/-- The Step button's `disabled={isRunning}` prop in SimulationControls. -/
def stepButtonDisabled (running : Bool) : Bool :=
  running

/-- `Math.min(100, Math.max(0, x))` from the `analyze-semantic` handler. -/
def clampScore (x : ℚ) : ℚ :=
  min 100 (max 0 x)

/-- The semantic score as computed by the `analyze-semantic` edge function
(`src/unnamed/part_000` line 279) and by `IngestData.tsx` line 60:
fixed weights 0.4 / 0.35 / 0.25 applied to the clamped inputs. -/
def semanticScoreCode (relevance uniqueness reconstructability : ℚ) : ℚ :=
  clampScore relevance * (40 / 100) + clampScore uniqueness * (35 / 100) +
    clampScore reconstructability * (25 / 100)

/-- A `valuation_weights` row. -/
structure Weights where
  wRelevance : ℚ
  wUniqueness : ℚ
  wReconstructability : ℚ
deriving DecidableEq

/-- The sum of the three weights (`total` in `handleSaveWeights`). -/
def weightsTotal (w : Weights) : ℚ :=
  w.wRelevance + w.wUniqueness + w.wReconstructability

/-- `handleSaveWeights` normalization (Settings.tsx lines 63-69). -/
def normalizeWeights (w : Weights) : Weights :=
  ⟨w.wRelevance / weightsTotal w, w.wUniqueness / weightsTotal w,
    w.wReconstructability / weightsTotal w⟩

/-- The valuation as the spec words it (for comparison with the code): the
owner's configured weight triple, normalized, combined with clamped inputs. -/
def semanticScoreSpec (w : Weights) (relevance uniqueness reconstructability : ℚ) : ℚ :=
  let n := normalizeWeights w
  clampScore relevance * n.wRelevance + clampScore uniqueness * n.wUniqueness +
    clampScore reconstructability * n.wReconstructability

/-- The spec's forward stage order, for stating one-step advancement. -/
def stageSucc : Stage → Stage
  | Stage.FULL => Stage.COMPRESSED
  | Stage.COMPRESSED => Stage.SUMMARIZED
  | Stage.SUMMARIZED => Stage.MINIMAL
  | Stage.MINIMAL => Stage.DELETED
  | Stage.DELETED => Stage.DELETED


/-! ### Basic facts about the embedded operations -/

lemma nextStageSize_fst (st : Stage) (sz : ℚ) :
    (nextStageSize st sz).1 = stageSucc st := by
  cases st <;> rfl

lemma stageSucc_ne {st : Stage} (h : st ≠ Stage.DELETED) : stageSucc st ≠ st := by
  cases st <;> simp_all [stageSucc]

lemma nextStageSize_fst_ne {st : Stage} (sz : ℚ) (h : st ≠ Stage.DELETED) :
    (nextStageSize st sz).1 ≠ st := by
  rw [nextStageSize_fst]; exact stageSucc_ne h

lemma eligibleOf_stage_ne {items : List Item} {i : Item} (h : i ∈ eligibleOf items) :
    i.stage ≠ Stage.DELETED := by
  have := List.of_mem_filter h
  simpa using this

/-- The degradation loop handles the items in list order: the ids of its log
entries are an initial segment of the ids of its input list. -/
lemma degradeLoop_logs_ids (cap : ℚ) (year : ℤ) (l : List Item) :
    ∀ storage : ℚ, (∀ i ∈ l, i.stage ≠ Stage.DELETED) →
      ∃ k, ((degradeLoop cap year l storage).logs).map LogEntry.itemId
        = (l.map Item.id).take k := by
  induction l with
  | nil => exact fun storage _ => ⟨0, rfl⟩
  | cons item rest ih =>
    intro storage h
    by_cases hs : storage ≤ cap
    · exact ⟨0, by simp [degradeLoop, hs]⟩
    · have hst : item.stage ≠ Stage.DELETED := h item (List.mem_cons_self _ _)
      have hne : ¬ (nextStageSize item.stage item.currentSizeKB).1 = item.stage :=
        nextStageSize_fst_ne _ hst
      obtain ⟨k, hk⟩ :=
        ih (storage - (item.currentSizeKB - (nextStageSize item.stage item.currentSizeKB).2))
          (fun i hi => h i (List.mem_cons_of_mem _ hi))
      exact ⟨k + 1, by simp [degradeLoop, hs, hne, hk]⟩

/-- Every log entry the loop produces records a single forward stage step,
never out of `DELETED`, with the new size computed from the logged old size. -/
lemma degradeLoop_logs_shape (cap : ℚ) (year : ℤ) (l : List Item) :
    ∀ storage : ℚ, ∀ t ∈ (degradeLoop cap year l storage).logs,
      t.prevStage ≠ Stage.DELETED ∧ t.newStage = stageSucc t.prevStage ∧
        t.sizeAfterKB = (nextStageSize t.prevStage t.sizeBeforeKB).2 := by
  induction l with
  | nil => intro storage t ht; simp [degradeLoop] at ht
  | cons item rest ih =>
    intro storage t ht
    by_cases hs : storage ≤ cap
    · simp [degradeLoop, hs] at ht
    · by_cases hne : (nextStageSize item.stage item.currentSizeKB).1 = item.stage
      · simp only [degradeLoop, if_neg hs, if_pos hne] at ht
        exact ih storage t ht
      · simp only [degradeLoop, if_neg hs, if_neg hne, List.mem_cons] at ht
        rcases ht with rfl | ht
        · refine ⟨?_, ?_, ?_⟩
          · intro hd
            have hstage : item.stage = Stage.DELETED := hd
            rw [hstage] at hne
            exact hne rfl
          · exact (nextStageSize_fst _ _).symm ▸ rfl
          · rfl
        · exact ih _ t ht

/-! ### Branch lemmas for one decay cycle -/

lemma decayCycle_terminal (st : SimSettings) (items : List Item)
    (h : st.currentYear + st.decayIntervalYears > st.totalYears) :
    decayCycle st items = ⟨{ st with isRunning := false }, items, none, [], []⟩ := by
  simp only [decayCycle]
  rw [if_pos h]

lemma decayCycle_nonterminal_settings (st : SimSettings) (items : List Item)
    (h : ¬ st.currentYear + st.decayIntervalYears > st.totalYears) :
    (decayCycle st items).settings
      = { st with
          currentYear := st.currentYear + st.decayIntervalYears
          currentCapacityKB := ((capacityAfterOf st : ℤ) : ℚ) } := by
  simp only [decayCycle]
  rw [if_neg h]
  split <;> rfl

lemma decayCycle_nonterminal_event_length (st : SimSettings) (items : List Item)
    (h : ¬ st.currentYear + st.decayIntervalYears > st.totalYears) :
    (decayCycle st items).event.toList.length = 1 := by
  simp only [decayCycle]
  rw [if_neg h]
  split <;> rfl

lemma decayCycle_logs_cases (st : SimSettings) (items : List Item) :
    (decayCycle st items).logs = [] ∨
      (decayCycle st items).logs
        = (degradeLoop ((capacityAfterOf st : ℤ) : ℚ)
            (st.currentYear + st.decayIntervalYears)
            (sortByScore (eligibleOf items)) (storageOf (eligibleOf items))).logs := by
  simp only [decayCycle]
  split
  · exact Or.inl rfl
  · split
    · exact Or.inr rfl
    · exact Or.inl rfl

/-! ### `processDecayEvent` on a snapshot -/

lemma processDecayEvent_terminal (s : SimState)
    (h : s.settings.currentYear + s.settings.decayIntervalYears > s.settings.totalYears) :
    processDecayEvent s
      = ⟨{ s.settings with isRunning := false }, s.items, s.events, s.logs, s.alerts⟩ := by
  simp only [processDecayEvent, decayCycle_terminal s.settings s.items h]
  simp

lemma processDecayEvent_nonterminal (s : SimState)
    (h : ¬ s.settings.currentYear + s.settings.decayIntervalYears > s.settings.totalYears) :
    (processDecayEvent s).settings
        = { s.settings with
            currentYear := s.settings.currentYear + s.settings.decayIntervalYears
            currentCapacityKB := ((capacityAfterOf s.settings : ℤ) : ℚ) } ∧
      (processDecayEvent s).events.length = s.events.length + 1 := by
  constructor
  · simp only [processDecayEvent]
    exact decayCycle_nonterminal_settings s.settings s.items h
  · simp only [processDecayEvent, List.length_append]
    rw [decayCycle_nonterminal_event_length s.settings s.items h]

/-! ### Stability of the score sort -/

lemma filter_orderedInsert (c : ℚ) (x : Item) (l : List Item) :
    (List.orderedInsert scoreLE x l).filter (fun i => decide (scoreOrZero i = c))
      = if scoreOrZero x = c
        then x :: l.filter (fun i => decide (scoreOrZero i = c))
        else l.filter (fun i => decide (scoreOrZero i = c)) := by
  induction l with
  | nil => by_cases h : scoreOrZero x = c <;> simp [List.orderedInsert, h]
  | cons y ys ih =>
    by_cases hxy : scoreLE x y
    · by_cases h : scoreOrZero x = c <;> simp [List.orderedInsert, hxy, h]
    · have hyx : scoreOrZero y < scoreOrZero x := lt_of_not_le hxy
      by_cases h : scoreOrZero x = c
      · have hy : ¬ scoreOrZero y = c := by rw [← h]; exact ne_of_lt hyx
        simp [List.orderedInsert, hxy, h, hy, ih]
      · by_cases hy : scoreOrZero y = c <;>
          simp [List.orderedInsert, hxy, h, hy, ih]

/-- The sort is stable: within one score class it only keeps the presented order. -/
lemma sortByScore_filter (l : List Item) (c : ℚ) :
    (sortByScore l).filter (fun i => decide (scoreOrZero i = c))
      = l.filter (fun i => decide (scoreOrZero i = c)) := by
  induction l with
  | nil => rfl
  | cons x xs ih =>
    show (List.orderedInsert scoreLE x (List.insertionSort scoreLE xs)).filter _ = _
    rw [filter_orderedInsert]
    by_cases h : scoreOrZero x = c <;> simp [h, List.filter_cons]  <;> exact ih

lemma sortByScore_sorted (l : List Item) : List.Sorted scoreLE (sortByScore l) :=
  List.sorted_insertionSort scoreLE l

lemma sortByScore_perm (l : List Item) : List.Perm (sortByScore l) l :=
  List.perm_insertionSort scoreLE l

set_option maxRecDepth 10000

/-! ### C2 — capacity decay formula -/

/-- C2: each decay cycle sets the new capacity to
`floor(capacityBefore * (1 - decayPercent/100))`, recomputed from the current
capacity; with capacity 1,000,000 KB and 5% decay one step yields exactly
950,000 KB, and a second step compounds to 902,500 KB. -/
theorem c2_capacity_exponential_decay :
    (∀ (st : SimSettings) (items : List Item),
        st.currentYear + st.decayIntervalYears ≤ st.totalYears →
        (decayCycle st items).settings.currentCapacityKB
          = ((⌊st.currentCapacityKB * (1 - st.decayPercent / 100)⌋ : ℤ) : ℚ))
    ∧ (decayCycle ⟨1000000, 0, 60, 5, 2, true⟩ []).settings.currentCapacityKB = 950000
    ∧ (processDecayEvent (processDecayEvent
          ⟨⟨1000000, 0, 60, 5, 2, false⟩, [], [], [], []⟩)).settings.currentCapacityKB
        = 902500 := by
  refine ⟨?_, ?_, ?_⟩
  · intro st items h
    rw [decayCycle_nonterminal_settings st items (not_lt.mpr h)]
    rfl
  · with_unfolding_all rfl
  · with_unfolding_all rfl

/-- Witness for C2 at a concrete settings row. -/
theorem c2_capacity_exponential_decay_witness :
    ((0 : ℤ) + 2 ≤ 60)
    ∧ (decayCycle ⟨1000000, 0, 60, 5, 2, true⟩ []).settings.currentCapacityKB
        = ((⌊(1000000 : ℚ) * (1 - 5 / 100)⌋ : ℤ) : ℚ) :=
  ⟨by decide,
    c2_capacity_exponential_decay.1 ⟨1000000, 0, 60, 5, 2, true⟩ [] (by decide)⟩

/-! ### C4 — manual step and isRunning -/

/-- C4 counterexample: with `isRunning = true`, calling `stepNextDecay` still
performs a full decay cycle (the year advances and an event row is appended),
contradicting the claim that the call performs no decay cycle. -/
theorem c4_counterexample_step_runs_while_running :
    ((⟨⟨1000000, 0, 60, 5, 2, true⟩, [], [], [], []⟩ : SimState).settings.isRunning = true)
    ∧ (stepNextDecay ⟨⟨1000000, 0, 60, 5, 2, true⟩, [], [], [], []⟩).settings.currentYear = 2
    ∧ (stepNextDecay ⟨⟨1000000, 0, 60, 5, 2, true⟩, [], [], [], []⟩).events.length = 1
    ∧ ((⟨⟨1000000, 0, 60, 5, 2, true⟩, [], [], [], []⟩ : SimState).settings.currentYear = 0)
    ∧ ((⟨⟨1000000, 0, 60, 5, 2, true⟩, [], [], [], []⟩ : SimState).events.length = 0)
    ∧ ((2 : ℤ) ≠ 0) := by
  refine ⟨rfl, ?_, ?_, rfl, rfl, by decide⟩
  · with_unfolding_all rfl
  · with_unfolding_all rfl

/-- C4 amended: `stepNextDecay` is exactly one `processDecayEvent` call with no
`isRunning` guard — invoked while running it still advances the year and
appends an event; the only guard is the UI Step button's `disabled={isRunning}`. -/
theorem c4_amended_step_unguarded :
    (∀ s : SimState, stepNextDecay s = processDecayEvent s)
    ∧ (∀ b : Bool, stepButtonDisabled b = b)
    ∧ (∀ s : SimState,
        s.settings.currentYear + s.settings.decayIntervalYears ≤ s.settings.totalYears →
        (stepNextDecay s).settings.currentYear
            = s.settings.currentYear + s.settings.decayIntervalYears
          ∧ (stepNextDecay s).events.length = s.events.length + 1) := by
  refine ⟨fun s => rfl, fun b => rfl, ?_⟩
  intro s h
  obtain ⟨hs, he⟩ := processDecayEvent_nonterminal s (not_lt.mpr h)
  constructor
  · show (processDecayEvent s).settings.currentYear = _
    rw [hs]
  · exact he

/-- Witness for C4's amended claim at a running concrete state. -/
theorem c4_amended_step_unguarded_witness :
    ((⟨⟨1000000, 0, 60, 5, 2, true⟩, [], [], [], []⟩ : SimState).settings.currentYear
        + (⟨⟨1000000, 0, 60, 5, 2, true⟩, [], [], [], []⟩ : SimState).settings.decayIntervalYears
        ≤ (⟨⟨1000000, 0, 60, 5, 2, true⟩, [], [], [], []⟩ : SimState).settings.totalYears)
    ∧ ((stepNextDecay ⟨⟨1000000, 0, 60, 5, 2, true⟩, [], [], [], []⟩).settings.currentYear
          = (0 : ℤ) + 2
        ∧ (stepNextDecay ⟨⟨1000000, 0, 60, 5, 2, true⟩, [], [], [], []⟩).events.length = 0 + 1) :=
  ⟨by decide,
    c4_amended_step_unguarded.2.2 ⟨⟨1000000, 0, 60, 5, 2, true⟩, [], [], [], []⟩ (by decide)⟩

/-! ### C7 — exactly 30 decay cycles, then a terminal no-op -/

/-- C7: starting from year 0 with 60 total years and a 2-year interval, each of
the first 30 steps advances the year by 2 and appends one decay event; the next
step (year 60 → 62 > 60) only flips `isRunning` to false, leaving capacity,
items, year and all appended tables unchanged, so the 31st step is a no-op. -/
theorem c7_scheduler_terminates (s : SimState)
    (h0 : s.settings.currentYear = 0) (h60 : s.settings.totalYears = 60)
    (h2 : s.settings.decayIntervalYears = 2) :
    (∀ k : ℕ, k ≤ 30 →
        (processDecayEvent^[k] s).settings.currentYear = 2 * (k : ℤ) ∧
        (processDecayEvent^[k] s).events.length = s.events.length + k)
    ∧ processDecayEvent (processDecayEvent^[30] s)
        = ⟨{ (processDecayEvent^[30] s).settings with isRunning := false },
            (processDecayEvent^[30] s).items, (processDecayEvent^[30] s).events,
            (processDecayEvent^[30] s).logs, (processDecayEvent^[30] s).alerts⟩ := by
  have key : ∀ k : ℕ, k ≤ 30 →
      (processDecayEvent^[k] s).settings.currentYear = 2 * (k : ℤ) ∧
      (processDecayEvent^[k] s).settings.totalYears = 60 ∧
      (processDecayEvent^[k] s).settings.decayIntervalYears = 2 ∧
      (processDecayEvent^[k] s).events.length = s.events.length + k := by
    intro k
    induction k with
    | zero =>
      intro _
      simp only [Function.iterate_zero, id_eq]
      exact ⟨by rw [h0]; simp, h60, h2, by simp⟩
    | succ n ih =>
      intro hn
      obtain ⟨hy, ht, hi, he⟩ := ih (Nat.le_of_succ_le hn)
      have hnt : ¬ (processDecayEvent^[n] s).settings.currentYear +
          (processDecayEvent^[n] s).settings.decayIntervalYears >
          (processDecayEvent^[n] s).settings.totalYears := by
        rw [hy, ht, hi]
        omega
      obtain ⟨hset, hev⟩ := processDecayEvent_nonterminal _ hnt
      rw [Function.iterate_succ_apply']
      refine ⟨?_, ?_, ?_, ?_⟩
      · rw [hset]
        show (processDecayEvent^[n] s).settings.currentYear +
            (processDecayEvent^[n] s).settings.decayIntervalYears = 2 * ((n + 1 : ℕ) : ℤ)
        rw [hy, hi]
        push_cast
        ring
      · rw [hset]; exact ht
      · rw [hset]; exact hi
      · rw [hev, he]
        omega
  constructor
  · intro k hk
    obtain ⟨a, _, _, d⟩ := key k hk
    exact ⟨a, d⟩
  · obtain ⟨hy, ht, hi, _⟩ := key 30 le_rfl
    apply processDecayEvent_terminal
    rw [hy, ht, hi]
    omega

/-- Witness for C7 at a concrete initialized state. -/
theorem c7_scheduler_terminates_witness :
    ((⟨⟨1000000, 0, 60, 5, 2, false⟩, [], [], [], []⟩ : SimState).settings.currentYear = 0
      ∧ (⟨⟨1000000, 0, 60, 5, 2, false⟩, [], [], [], []⟩ : SimState).settings.totalYears = 60
      ∧ (⟨⟨1000000, 0, 60, 5, 2, false⟩, [], [], [], []⟩ : SimState).settings.decayIntervalYears = 2)
    ∧ (processDecayEvent^[30]
        (⟨⟨1000000, 0, 60, 5, 2, false⟩, [], [], [], []⟩ : SimState)).settings.currentYear
        = 2 * ((30 : ℕ) : ℤ) :=
  ⟨⟨rfl, rfl, rfl⟩,
    ((c7_scheduler_terminates ⟨⟨1000000, 0, 60, 5, 2, false⟩, [], [], [], []⟩
        rfl rfl rfl).1 30 (by decide)).1⟩

/-! ### C1 — single-pass cap within one decay cycle -/

/-- C1: within one decay cycle no item advances more than one stage — with
distinct item ids, each id is logged at most once per cycle (and by the stage
machine each log entry is a single forward step); in the spec's scenario
(one FULL item of 1000 KB, score 10, capacity 500 after decay) the cycle
produces exactly one FULL→COMPRESSED transition with new size 700, and the
item remains at COMPRESSED/700 although 700 > 500. -/
theorem c1_single_pass_cap :
    (∀ (st : SimSettings) (items : List Item),
        (items.map Item.id).Nodup →
        (((decayCycle st items).logs).map LogEntry.itemId).Nodup)
    ∧ (decayCycle ⟨500, 0, 60, 0, 2, false⟩ [⟨1, Stage.FULL, 1000, some 10, some 50⟩]).logs
        = [⟨1, Stage.FULL, Stage.COMPRESSED, some 10, 200, 50, 1000, 700⟩]
    ∧ (decayCycle ⟨500, 0, 60, 0, 2, false⟩ [⟨1, Stage.FULL, 1000, some 10, some 50⟩]).items
        = [⟨1, Stage.COMPRESSED, 700, some 10, some 50⟩]
    ∧ ((700 : ℚ) > 500) := by
  refine ⟨?_, ?_, ?_, ?_⟩
  · intro st items hnd
    rcases decayCycle_logs_cases st items with h | h
    · rw [h]; exact List.nodup_nil
    · rw [h]
      obtain ⟨k, hk⟩ := degradeLoop_logs_ids _ _ _ _
        (fun i hi => eligibleOf_stage_ne ((sortByScore_perm _).mem_iff.mp hi))
      rw [hk]
      have h1 : ((eligibleOf items).map Item.id).Nodup :=
        ((List.filter_sublist items).map Item.id).nodup hnd
      have h2 : ((sortByScore (eligibleOf items)).map Item.id).Nodup :=
        (((sortByScore_perm (eligibleOf items)).map Item.id).nodup_iff).mpr h1
      exact (List.take_sublist _ _).nodup h2
  · with_unfolding_all rfl
  · with_unfolding_all rfl
  · with_unfolding_all decide

/-- Witness for C1's Nodup hypothesis at the scenario input. -/
theorem c1_single_pass_cap_witness :
    (([⟨1, Stage.FULL, 1000, some 10, some 50⟩] : List Item).map Item.id).Nodup
    ∧ (((decayCycle ⟨500, 0, 60, 0, 2, false⟩
          [⟨1, Stage.FULL, 1000, some 10, some 50⟩]).logs).map LogEntry.itemId).Nodup :=
  ⟨by decide,
    c1_single_pass_cap.1 ⟨500, 0, 60, 0, 2, false⟩
      [⟨1, Stage.FULL, 1000, some 10, some 50⟩] (by decide)⟩

/-! ### C3 — selection order and tie-breaking -/

/-- C3 counterexample: two items with equal score 50 (ids 1 and 2, sizes 100
and 200).  Presenting them in the two possible store orders yields different
transition orders, so the claimed size/id tie-break (which would force [1, 2]
both times) and the claimed presentation-order independence are false. -/
theorem c3_counterexample_tie_order :
    ((decayCycle ⟨0, 0, 60, 0, 2, false⟩
        [⟨1, Stage.FULL, 100, some 50, none⟩, ⟨2, Stage.FULL, 200, some 50, none⟩]).logs.map
          LogEntry.itemId = [1, 2])
    ∧ ((decayCycle ⟨0, 0, 60, 0, 2, false⟩
        [⟨2, Stage.FULL, 200, some 50, none⟩, ⟨1, Stage.FULL, 100, some 50, none⟩]).logs.map
          LogEntry.itemId = [2, 1])
    ∧ ([1, 2] ≠ ([2, 1] : List ℕ)) := by
  refine ⟨?_, ?_, by decide⟩
  · with_unfolding_all rfl
  · with_unfolding_all rfl

/-- C3 amended: the cycle degrades eligible items in ascending order of
semanticScore (null read as 0) — the per-cycle log ids are an initial segment
of the stable sort of the eligible items by score — but there is no further
tie-break: the stable sort keeps items of equal score exactly in the order
presented, so tied transition orders depend on the store's row order. -/
theorem c3_amended_stable_sort_order :
    (∀ (st : SimSettings) (items : List Item),
        ∃ k, ((decayCycle st items).logs).map LogEntry.itemId
          = ((sortByScore (eligibleOf items)).map Item.id).take k)
    ∧ (∀ l : List Item, List.Sorted scoreLE (sortByScore l))
    ∧ (∀ (l : List Item) (c : ℚ),
        (sortByScore l).filter (fun i => decide (scoreOrZero i = c))
          = l.filter (fun i => decide (scoreOrZero i = c))) := by
  refine ⟨?_, sortByScore_sorted, sortByScore_filter⟩
  intro st items
  rcases decayCycle_logs_cases st items with h | h
  · exact ⟨0, by rw [h]; rfl⟩
  · rw [h]
    exact degradeLoop_logs_ids _ _ _ _
      (fun i hi => eligibleOf_stage_ne ((sortByScore_perm _).mem_iff.mp hi))

/-! ### C5 — the stage transition machine -/

/-- C5: every logged transition advances the item exactly one stage along
FULL → COMPRESSED → SUMMARIZED → MINIMAL → DELETED (no skip, no regression,
none out of DELETED), and the new size applies the fixed retention multiplier
to the item's current (logged before-)size: ×0.7, ×0.3, ×0.1 floored, and 0
for MINIMAL→DELETED. -/
theorem c5_stage_machine :
    ∀ (st : SimSettings) (items : List Item),
      ∀ t ∈ (decayCycle st items).logs,
        t.prevStage ≠ Stage.DELETED
        ∧ t.newStage = stageSucc t.prevStage
        ∧ (t.prevStage = Stage.FULL →
            t.newStage = Stage.COMPRESSED
              ∧ t.sizeAfterKB = ((⌊t.sizeBeforeKB * (7 / 10)⌋ : ℤ) : ℚ))
        ∧ (t.prevStage = Stage.COMPRESSED →
            t.newStage = Stage.SUMMARIZED
              ∧ t.sizeAfterKB = ((⌊t.sizeBeforeKB * (3 / 10)⌋ : ℤ) : ℚ))
        ∧ (t.prevStage = Stage.SUMMARIZED →
            t.newStage = Stage.MINIMAL
              ∧ t.sizeAfterKB = ((⌊t.sizeBeforeKB * (1 / 10)⌋ : ℤ) : ℚ))
        ∧ (t.prevStage = Stage.MINIMAL →
            t.newStage = Stage.DELETED ∧ t.sizeAfterKB = 0) := by
  intro st items t ht
  rcases decayCycle_logs_cases st items with h | h
  · rw [h] at ht
    simp at ht
  · rw [h] at ht
    obtain ⟨hne, hsucc, hsize⟩ := degradeLoop_logs_shape _ _ _ _ t ht
    refine ⟨hne, hsucc, ?_, ?_, ?_, ?_⟩ <;> intro hp <;>
      exact ⟨by rw [hsucc, hp]; rfl, by rw [hsize, hp]; rfl⟩

/-- Witness for C5: a SUMMARIZED→MINIMAL transition from a concrete cycle. -/
theorem c5_stage_machine_witness :
    (⟨3, Stage.SUMMARIZED, Stage.MINIMAL, some 20, 200, 50, 1000, 100⟩ : LogEntry)
        ∈ (decayCycle ⟨500, 0, 60, 0, 2, false⟩
            [⟨3, Stage.SUMMARIZED, 1000, some 20, none⟩]).logs
    ∧ (⟨3, Stage.SUMMARIZED, Stage.MINIMAL, some 20, 200, 50, 1000, 100⟩ : LogEntry).newStage
        = stageSucc
          (⟨3, Stage.SUMMARIZED, Stage.MINIMAL, some 20, 200, 50, 1000, 100⟩ : LogEntry).prevStage := by
  have hm : (⟨3, Stage.SUMMARIZED, Stage.MINIMAL, some 20, 200, 50, 1000, 100⟩ : LogEntry)
      ∈ (decayCycle ⟨500, 0, 60, 0, 2, false⟩
          [⟨3, Stage.SUMMARIZED, 1000, some 20, none⟩]).logs := by
    with_unfolding_all exact List.mem_singleton.mpr rfl
  exact ⟨hm, (c5_stage_machine _ _ _ hm).2.1⟩

/-! ### C8 — per-item alert emission and severity -/

/-- C8 counterexample: an item with score 85 transitioning FULL→COMPRESSED
(not deleted) gets a `high_value_risk` alert of severity `warning`, not the
`critical` the claim requires for score ≥ 80 on a non-deleted transition. -/
theorem c8_counterexample_highvalue_not_critical :
    ((decayCycle ⟨500, 0, 60, 0, 2, false⟩ [⟨1, Stage.FULL, 1000, some 85, some 50⟩]).alerts
        = [⟨none, 0, some 200, Severity.critical, AlertType.storagePressure, 2⟩,
           ⟨some 1, 85, some 200, Severity.warning, AlertType.highValueRisk, 2⟩])
    ∧ (Severity.warning ≠ Severity.critical) := by
  refine ⟨?_, by decide⟩
  with_unfolding_all rfl

/-- C8 amended: a per-item alert is emitted exactly when score ≥ 80 or the
target stage is DELETED (as claimed), but its severity is `critical` exactly
when score > 70 (strictly) AND the stage becomes DELETED, else `warning`;
the score-85 deletion scenario does yield exactly one `item_deleted` alert of
severity `critical`. -/
theorem c8_amended_alert_severity :
    (∀ (score : ℚ) (stg : Stage),
        itemAlertEmitted score stg = true ↔ (score ≥ 80 ∨ stg = Stage.DELETED))
    ∧ (∀ (score : ℚ) (stg : Stage), itemAlertEmitted score stg = true →
        itemAlertSeverity score stg
          = if score > 70 ∧ stg = Stage.DELETED then Severity.critical
            else Severity.warning)
    ∧ ((decayCycle ⟨500, 0, 60, 0, 2, false⟩
          [⟨7, Stage.MINIMAL, 1000, some 85, some 50⟩]).alerts.filter
            (fun a => decide (a.alertType = AlertType.itemDeleted))
        = [⟨some 7, 85, some 200, Severity.critical, AlertType.itemDeleted, 2⟩]) := by
  refine ⟨?_, ?_, ?_⟩
  · intro score stg
    simp [itemAlertEmitted, itemAlertHighValue]
  · intro score stg hem
    have hem' : score ≥ 80 ∨ stg = Stage.DELETED := by
      simpa [itemAlertEmitted, itemAlertHighValue] using hem
    unfold itemAlertSeverity
    by_cases h70 : score > 70
    · by_cases hD : stg = Stage.DELETED
      · simp [h70, hD]
      · simp [h70, hD]
    · by_cases hD : stg = Stage.DELETED
      · simp [h70, hD]
      · exfalso
        rcases hem' with h80 | h
        · exact h70 (lt_of_lt_of_le (by norm_num) h80)
        · exact hD h
  · with_unfolding_all rfl

/-- Witness for C8's amended severity rule at score 85 and stage DELETED. -/
theorem c8_amended_alert_severity_witness :
    itemAlertEmitted 85 Stage.DELETED = true
    ∧ itemAlertSeverity 85 Stage.DELETED
        = if (85 : ℚ) > 70 ∧ Stage.DELETED = Stage.DELETED then Severity.critical
          else Severity.warning :=
  ⟨by with_unfolding_all rfl,
    c8_amended_alert_severity.2.1 85 Stage.DELETED (by with_unfolding_all rfl)⟩

/-! ### C9 — storage-pressure alert threshold (code bug) -/

/-- C9: the claim (and the spec) require a warning storage-pressure alert
whenever storageBefore/capacityAfter exceeds 0.8.  On the code, the pressure
check sits inside the `currentStorage > capacityAfter` branch, so at ratio
0.9 (storage 900, capacity 1000) no alert of any kind is emitted, and when a
pressure alert is emitted (only possible with ratio > 1) its severity is
always `critical` — the `storagePressure > 80` test and the `warning` arm of
the severity ternary are unreachable. -/
theorem c9_pressure_alert_missing_below_capacity :
    (storageOf (eligibleOf [⟨1, Stage.FULL, 900, some 50, some 50⟩]) = 900)
    ∧ (capacityAfterOf ⟨1053, 0, 60, 5, 2, false⟩ = 1000)
    ∧ ((900 : ℚ) / 1000 > 8 / 10)
    ∧ ((900 : ℚ) / 1000 ≤ 1)
    ∧ ((decayCycle ⟨1053, 0, 60, 5, 2, false⟩
          [⟨1, Stage.FULL, 900, some 50, some 50⟩]).alerts = [])
    ∧ ((decayCycle ⟨1053, 0, 60, 5, 2, false⟩
          [⟨1, Stage.FULL, 1100, some 50, some 50⟩]).alerts
        = [⟨none, 0, some 110, Severity.critical, AlertType.storagePressure, 2⟩]) := by
  refine ⟨?_, ?_, by norm_num, by norm_num, ?_, ?_⟩
  · with_unfolding_all rfl
  · with_unfolding_all rfl
  · with_unfolding_all rfl
  · with_unfolding_all rfl

/-! ### C10 — null semantic score behaves as 0 -/

/-- C10: a null `semantic_score` reads as 0 through `|| 0`, hence such an item
sorts strictly before every positive-score item (so it degrades first under
pressure), and it can never produce a high-value alert: when an alert is
emitted at all it is the DELETED case, typed `item_deleted`, severity
`warning` (never `critical`, since 0 fails both the ≥ 80 and > 70 checks). -/
theorem c10_null_score_as_zero :
    (∀ i : Item, i.semanticScore = none → scoreOrZero i = 0)
    ∧ (∀ (l : List Item) (i j : ℕ) (x y : Item),
        (sortByScore l)[i]? = some x → (sortByScore l)[j]? = some y →
        x.semanticScore = none → 0 < scoreOrZero y → i < j)
    ∧ (∀ i : Item, i.semanticScore = none → ∀ stg : Stage,
        itemAlertEmitted (scoreOrZero i) stg = true →
          stg = Stage.DELETED
          ∧ itemAlertType (scoreOrZero i) stg = AlertType.itemDeleted
          ∧ itemAlertSeverity (scoreOrZero i) stg = Severity.warning) := by
  refine ⟨?_, ?_, ?_⟩
  · intro i h
    simp [scoreOrZero, h]
  · intro l i j x y hx hy hxn hy0
    by_contra hij
    have hx0 : scoreOrZero x = 0 := by simp [scoreOrZero, hxn]
    obtain ⟨hi, hxe⟩ := List.getElem?_eq_some_iff.mp hx
    obtain ⟨hj, hye⟩ := List.getElem?_eq_some_iff.mp hy
    rcases lt_or_eq_of_le (not_lt.mp hij) with hji | heq
    · have hrel := (sortByScore_sorted l).rel_get_of_lt
        (a := ⟨j, hj⟩) (b := ⟨i, hi⟩) (Fin.mk_lt_mk.mpr hji)
      have hrel' : scoreOrZero y ≤ scoreOrZero x := by
        simpa [scoreLE, List.get_eq_getElem, hxe, hye] using hrel
      rw [hx0] at hrel'
      exact absurd hy0 (not_lt.mpr hrel')
    · rw [heq] at hy
      rw [hx] at hy
      have hxy : x = y := by injection hy
      rw [← hxy, hx0] at hy0
      exact lt_irrefl 0 hy0
  · intro i h stg hem
    have h0 : scoreOrZero i = 0 := by simp [scoreOrZero, h]
    rw [h0] at hem
    have hem' : (0 : ℚ) ≥ 80 ∨ stg = Stage.DELETED := by
      simpa [itemAlertEmitted, itemAlertHighValue] using hem
    have hD : stg = Stage.DELETED := by
      rcases hem' with h80 | hD
      · exfalso; norm_num at h80
      · exact hD
    rw [h0]
    refine ⟨hD, ?_, ?_⟩
    · simp [itemAlertType, hD]
    · norm_num [itemAlertSeverity, hD]

/-- Witness for C10 on a two-item list: the never-scored item sits strictly
before the scored one in degradation order, and its deletion alert is a
warning. -/
theorem c10_null_score_as_zero_witness :
    ((sortByScore [⟨2, Stage.FULL, 5, some 3, none⟩, ⟨1, Stage.FULL, 9, none, none⟩])[0]?
        = some ⟨1, Stage.FULL, 9, none, none⟩)
    ∧ ((sortByScore [⟨2, Stage.FULL, 5, some 3, none⟩, ⟨1, Stage.FULL, 9, none, none⟩])[1]?
        = some ⟨2, Stage.FULL, 5, some 3, none⟩)
    ∧ ((⟨1, Stage.FULL, 9, none, none⟩ : Item).semanticScore = none)
    ∧ (0 < scoreOrZero ⟨2, Stage.FULL, 5, some 3, none⟩)
    ∧ ((0 : ℕ) < 1)
    ∧ (itemAlertEmitted (scoreOrZero ⟨1, Stage.FULL, 9, none, none⟩) Stage.DELETED = true)
    ∧ (itemAlertSeverity (scoreOrZero ⟨1, Stage.FULL, 9, none, none⟩) Stage.DELETED
        = Severity.warning) := by
  have h1 : (sortByScore [⟨2, Stage.FULL, 5, some 3, none⟩, ⟨1, Stage.FULL, 9, none, none⟩])[0]?
      = some ⟨1, Stage.FULL, 9, none, none⟩ := by with_unfolding_all rfl
  have h2 : (sortByScore [⟨2, Stage.FULL, 5, some 3, none⟩, ⟨1, Stage.FULL, 9, none, none⟩])[1]?
      = some ⟨2, Stage.FULL, 5, some 3, none⟩ := by with_unfolding_all rfl
  have h4 : 0 < scoreOrZero ⟨2, Stage.FULL, 5, some 3, none⟩ := by with_unfolding_all decide
  have h6 : itemAlertEmitted (scoreOrZero ⟨1, Stage.FULL, 9, none, none⟩) Stage.DELETED
      = true := by with_unfolding_all rfl
  exact ⟨h1, h2, rfl, h4,
    c10_null_score_as_zero.2.1 _ 0 1 _ _ h1 h2 rfl h4,
    h6, (c10_null_score_as_zero.2.2 ⟨1, Stage.FULL, 9, none, none⟩ rfl Stage.DELETED h6).2.2⟩

/-! ### C6 — the semantic valuation and the configured weights -/

/-- C6 counterexample: the valuation the code computes ignores the owner's
configured weight triple — with configured weights (1, 0, 0) the claimed
formula gives 100 on inputs (100, 0, 0), while the code's fixed
0.4/0.35/0.25 weighting gives 40. -/
theorem c6_counterexample_configured_weights_unused :
    semanticScoreSpec ⟨1, 0, 0⟩ 100 0 0 = 100
    ∧ semanticScoreCode 100 0 0 = 40
    ∧ ((100 : ℚ) ≠ 40) := by
  refine ⟨?_, ?_, by norm_num⟩
  · with_unfolding_all rfl
  · with_unfolding_all rfl

/-- C6 amended: the valuation clamps each input to [0,100] and combines them
with the fixed weights 0.4/0.35/0.25 (which sum to 1), so the result lies in
[0,100]; the owner's configured triple is normalized to sum 1 when saved
(`handleSaveWeights`) but is never read by the score computation. -/
theorem c6_amended_fixed_weight_valuation :
    (∀ r u c : ℚ, semanticScoreCode r u c
        = clampScore r * (40 / 100) + clampScore u * (35 / 100)
          + clampScore c * (25 / 100))
    ∧ ((40 : ℚ) / 100 + 35 / 100 + 25 / 100 = 1)
    ∧ (∀ r u c : ℚ, 0 ≤ semanticScoreCode r u c ∧ semanticScoreCode r u c ≤ 100)
    ∧ (∀ w : Weights, weightsTotal w ≠ 0 → weightsTotal (normalizeWeights w) = 1) := by
  refine ⟨fun r u c => rfl, by norm_num, ?_, ?_⟩
  · intro r u c
    have hr0 : 0 ≤ clampScore r := le_min (by norm_num) (le_max_left 0 r)
    have hu0 : 0 ≤ clampScore u := le_min (by norm_num) (le_max_left 0 u)
    have hc0 : 0 ≤ clampScore c := le_min (by norm_num) (le_max_left 0 c)
    have hr1 : clampScore r ≤ 100 := min_le_left _ _
    have hu1 : clampScore u ≤ 100 := min_le_left _ _
    have hc1 : clampScore c ≤ 100 := min_le_left _ _
    unfold semanticScoreCode
    constructor
    · have t1 := mul_nonneg hr0 (show (0 : ℚ) ≤ 40 / 100 by norm_num)
      have t2 := mul_nonneg hu0 (show (0 : ℚ) ≤ 35 / 100 by norm_num)
      have t3 := mul_nonneg hc0 (show (0 : ℚ) ≤ 25 / 100 by norm_num)
      linarith
    · have t1 := mul_le_mul_of_nonneg_right hr1 (show (0 : ℚ) ≤ 40 / 100 by norm_num)
      have t2 := mul_le_mul_of_nonneg_right hu1 (show (0 : ℚ) ≤ 35 / 100 by norm_num)
      have t3 := mul_le_mul_of_nonneg_right hc1 (show (0 : ℚ) ≤ 25 / 100 by norm_num)
      have : (100 : ℚ) * (40 / 100) + 100 * (35 / 100) + 100 * (25 / 100) = 100 := by
        norm_num
      linarith
  · intro w hw
    show w.wRelevance / weightsTotal w + w.wUniqueness / weightsTotal w
        + w.wReconstructability / weightsTotal w = 1
    rw [div_add_div_same, div_add_div_same]
    exact div_self hw

/-- Witness for C6's amended normalization clause at weights (2, 1, 1). -/
theorem c6_amended_fixed_weight_valuation_witness :
    weightsTotal ⟨2, 1, 1⟩ ≠ 0 ∧ weightsTotal (normalizeWeights ⟨2, 1, 1⟩) = 1 :=
  ⟨by with_unfolding_all decide,
    c6_amended_fixed_weight_valuation.2.2.2 ⟨2, 1, 1⟩ (by with_unfolding_all decide)⟩

end EntropicArchive
